import Mathlib

/-!
Shallow embedding of `virtinst/domcapabilities.py`: the parsed data model of a
libvirt domain-capabilities document and the derived queries defined on it
(`build_from_params`, `find_uefi_path_for_arch`, `label_for_firmware_path`,
`supports_safe_host_model`, `get_cpu_models`, `get_cpu_security_features`,
`_CapsBlock.get_enum`, `_get_expanded_cpu`), together with theorems settling
the specification claims about them.

XML attributes and text nodes that may be absent are `Option String`
(an absent `XMLProperty` is Python `None`); `is_yesno` flags are `Bool`
(an absent attribute is falsy, like Python `None`).  Python exceptions are
`Except` errors.  External collaborators (the libvirt connection RPCs and the
XML-binding parse, which live outside this file's source) are oracle
parameters.
-/

/-! ## Value / enum / capability-block primitives (`_Value`, `_Enum`, `_CapsBlock`) -/

/-- `_Value`: one `<value>` element; `value` is its text. -/
structure CapsValue where
  value : String
deriving Repr, DecidableEq

/-- `_Enum`: a named `<enum>` with its ordered `<value>` children. -/
structure CapsEnum where
  name : Option String
  values : List CapsValue
deriving Repr, DecidableEq

/-- `_HasValues.get_values`. -/
def enum_get_values (e : CapsEnum) : List String :=
  e.values.map (fun v => v.value)

/-- `_CapsBlock`: a supported-flag, direct `<value>` children and `<enum>` children. -/
structure CapsBlock where
  supported : Bool
  values : List CapsValue
  enums : List CapsEnum
deriving Repr, DecidableEq

/-- `_CapsBlock.enum_names`. -/
def enum_names (b : CapsBlock) : List (Option String) :=
  b.enums.map (fun e => e.name)

/-- Python `KeyError`, raised by the dict lookup in `_CapsBlock.get_enum`
(the spec's abstract name for this hard lookup failure is `NotFoundError`). -/
inductive LookupError where
  | keyNotFound
deriving Repr, DecidableEq

/-- `_CapsBlock.get_enum`: `d = dict((e.name, e) for e in self.enums); return d[name]`.
The dict comprehension keeps the LAST binding for a repeated name, so the
lookup is the last enum whose name matches; a missing key raises `KeyError`. -/
def get_enum (b : CapsBlock) (n : Option String) : Except LookupError CapsEnum :=
  match (b.enums.filter (fun e => e.name == n)).getLast? with
  | some e => Except.ok e
  | none => Except.error LookupError.keyNotFound

/-! ## Misc toplevel blocks (`_OS`, `_Devices`, `_Features`) -/

/-- `_OS`: an `<os>` caps block with a single `loader` child block. -/
structure OSBlock where
  supported : Bool
  values : List CapsValue
  enums : List CapsEnum
  loader : CapsBlock
deriving Repr, DecidableEq

/-- `_Devices`: a `<devices>` caps block with `hostdev` and `disk` child blocks. -/
structure DevicesBlock where
  supported : Bool
  values : List CapsValue
  enums : List CapsEnum
  hostdev : CapsBlock
  disk : CapsBlock
deriving Repr, DecidableEq

/-- `_Features`: a `<features>` caps block with a `gic` child block. -/
structure FeaturesBlock where
  supported : Bool
  values : List CapsValue
  enums : List CapsEnum
  gic : CapsBlock
deriving Repr, DecidableEq

/-! ## CPU classes (`_CPUModel`, `_CPUFeature`, `_CPUMode`, `_CPU`) -/

/-- `_CPUModel`: `<model>` text plus `usable` and `fallback` attributes. -/
structure CPUModel where
  model : String
  usable : Option String
  fallback : Option String
deriving Repr, DecidableEq

/-- `_CPUFeature`: `<feature>` with `name` and `policy` attributes. -/
structure CPUFeature where
  name : Option String
  policy : Option String
deriving Repr, DecidableEq

/-- `_CPUMode`: `<mode>` with name, supported flag, vendor, models and features. -/
structure CPUMode where
  name : Option String
  supported : Bool
  vendor : Option String
  models : List CPUModel
  features : List CPUFeature
deriving Repr, DecidableEq

/-- `_CPU`: the `<cpu>` element, an ordered list of modes. -/
structure CPUTree where
  modes : List CPUMode
deriving Repr, DecidableEq

/-! ## DomainCapabilities aggregate -/

/-- `DomainCapabilities`: the parsed `<domainCapabilities>` document. -/
structure DomainCapabilities where
  os : OSBlock
  cpu : CPUTree
  devices : DevicesBlock
  features : FeaturesBlock
  arch : Option String
  domain : Option String
  machine : Option String
  path : Option String
deriving Repr, DecidableEq

/-! ## UEFI pattern matching

Every regex in `_uefi_arch_patterns` is a concatenation of `.*` and literal
runs (with `\.` escaping a literal dot), so a pattern is embedded exactly as a
token list.  `re.match` anchors at the start of the string and succeeds on any
matching prefix; `.` does not match a newline. -/

/-- One token of a `_uefi_arch_patterns` regex: `.*` or a literal run. -/
inductive RegexTok where
  | dotStar
  | lit (s : List Char)
deriving Repr, DecidableEq

/-- The suffixes of the input that `.*` can leave behind: the input itself
(consume nothing) and, while the front character is not a newline, each suffix
obtained by consuming one more character. -/
def star_suffixes : List Char → List (List Char)
  | [] => [[]]
  | c :: cs => (c :: cs) :: (if c == '\n' then [] else star_suffixes cs)

/-- Match a token list against a prefix of the character list (the semantics of
`re.match` for these patterns): `lit` consumes exactly its characters, `dotStar`
consumes any run of non-newline characters, and leftover input is allowed. -/
def match_toks : List RegexTok → List Char → Bool
  | [], _ => true
  | RegexTok.lit l :: rest, cs =>
    if l.isPrefixOf cs then match_toks rest (cs.drop l.length) else false
  | RegexTok.dotStar :: rest, cs =>
    (star_suffixes cs).any (fun cs2 => match_toks rest cs2)

/-- `re.match(pattern, path)` as a Boolean, for the embedded pattern language. -/
def re_match (toks : List RegexTok) (s : String) : Bool :=
  match_toks toks s.data

/-- The i686 patterns of `_uefi_arch_patterns`: `.*ovmf-ia32.*`. -/
def uefi_patterns_i686 : List (List RegexTok) :=
  [ [RegexTok.dotStar, RegexTok.lit "ovmf-ia32".data, RegexTok.dotStar] ]

/-- The x86_64 patterns of `_uefi_arch_patterns`: `.*OVMF_CODE\.fd`,
`.*ovmf-x64/OVMF.*\.fd`, `.*ovmf-x86_64-.*`, `.*ovmf.*`, `.*OVMF.*`. -/
def uefi_patterns_x86_64 : List (List RegexTok) :=
  [ [RegexTok.dotStar, RegexTok.lit "OVMF_CODE.fd".data],
    [RegexTok.dotStar, RegexTok.lit "ovmf-x64/OVMF".data, RegexTok.dotStar,
     RegexTok.lit ".fd".data],
    [RegexTok.dotStar, RegexTok.lit "ovmf-x86_64-".data, RegexTok.dotStar],
    [RegexTok.dotStar, RegexTok.lit "ovmf".data, RegexTok.dotStar],
    [RegexTok.dotStar, RegexTok.lit "OVMF".data, RegexTok.dotStar] ]

/-- The aarch64 patterns of `_uefi_arch_patterns`: `.*AAVMF_CODE\.fd`,
`.*aarch64/QEMU_EFI.*`, `.*aarch64.*`. -/
def uefi_patterns_aarch64 : List (List RegexTok) :=
  [ [RegexTok.dotStar, RegexTok.lit "AAVMF_CODE.fd".data],
    [RegexTok.dotStar, RegexTok.lit "aarch64/QEMU_EFI".data, RegexTok.dotStar],
    [RegexTok.dotStar, RegexTok.lit "aarch64".data, RegexTok.dotStar] ]

/-- The armv7l patterns of `_uefi_arch_patterns`: `.*arm/QEMU_EFI.*`. -/
def uefi_patterns_armv7l : List (List RegexTok) :=
  [ [RegexTok.dotStar, RegexTok.lit "arm/QEMU_EFI".data, RegexTok.dotStar] ]

/-- `_uefi_arch_patterns`: the fixed arch → regex-list table, in source order.
Each regex is transliterated token by token (`\.` is a literal dot). -/
def uefi_arch_patterns : List (String × List (List RegexTok)) :=
  [ ("i686", uefi_patterns_i686),
    ("x86_64", uefi_patterns_x86_64),
    ("aarch64", uefi_patterns_aarch64),
    ("armv7l", uefi_patterns_armv7l) ]

/-- `arch_can_uefi`: `self.arch in list(self._uefi_arch_patterns.keys())`. -/
def arch_can_uefi (caps : DomainCapabilities) : Bool :=
  (uefi_arch_patterns.map Prod.fst).any (fun k => caps.arch == some k)

/-- `self._uefi_arch_patterns.get(self.arch)`: dict lookup returning `none` for
a missing key (a `None` arch is never a key). -/
def uefi_patterns_for (a : Option String) : Option (List (List RegexTok)) :=
  match a with
  | none => none
  | some s => (uefi_arch_patterns.find? (fun kv => kv.1 == s)).map Prod.snd

/-- `[v.value for v in self.os.loader.values]`. -/
def loader_values (caps : DomainCapabilities) : List String :=
  caps.os.loader.values.map (fun v => v.value)

/-- The nested loops of `find_uefi_path_for_arch`: for each pattern in table
order, scan all loader values in document order; return the first match. -/
def find_first_uefi_match : List (List RegexTok) → List String → Option String
  | [], _ => none
  | p :: ps, vals =>
    match vals.find? (fun v => re_match p v) with
    | some v => some v
    | none => find_first_uefi_match ps vals

/-- `DomainCapabilities.find_uefi_path_for_arch`.  The inner `none` branch is
unreachable: `arch_can_uefi` guarantees the dict lookup succeeds. -/
def find_uefi_path_for_arch (caps : DomainCapabilities) : Option String :=
  if arch_can_uefi caps then
    match uefi_patterns_for caps.arch with
    | some pats => find_first_uefi_match pats (loader_values caps)
    | none => none
  else none

/-! ## Firmware path labeling -/

/-- Python falsiness of the `path` argument: `None` or the empty string. -/
def path_is_falsy : Option String → Bool
  | none => true
  | some p => p == ""

/-- The label `_("UEFI %(arch)s: %(path)s")` after substitution. -/
def uefi_label (a p : String) : String :=
  "UEFI " ++ a ++ ": " ++ p

/-- The label `_("Custom: %(path)s")` after substitution. -/
def custom_label (p : String) : String :=
  "Custom: " ++ p

/-- The label returned for a falsy path: `_("BIOS")` for i686/x86_64, else `_("None")`. -/
def no_firmware_label (caps : DomainCapabilities) : String :=
  if caps.arch == some "i686" || caps.arch == some "x86_64" then "BIOS" else "None"

/-- The nested loops of `label_for_firmware_path`: walk the whole table in
order and return the architecture of the first pattern matching the path. -/
def first_arch_pattern_match : List (String × List (List RegexTok)) → String → Option String
  | [], _ => none
  | (a, ps) :: rest, p =>
    if ps.any (fun pat => re_match pat p) then some a
    else first_arch_pattern_match rest p

/-- `DomainCapabilities.label_for_firmware_path`. -/
def label_for_firmware_path (caps : DomainCapabilities) (path : Option String) : String :=
  if path_is_falsy path then
    no_firmware_label caps
  else
    let p := path.getD ""
    match first_arch_pattern_match uefi_arch_patterns p with
    | some a => uefi_label a p
    | none => custom_label p

/-! ## supports_uefi_xml and CPU capability queries -/

/-- `DomainCapabilities.supports_uefi_xml`. -/
def supports_uefi_xml (caps : DomainCapabilities) : Bool :=
  (enum_names caps.os.loader).contains (some "readonly") &&
    match get_enum caps.os.loader (some "readonly") with
    | Except.ok e => (enum_get_values e).contains "yes"
    | Except.error _ => false

/-- Python `IndexError`, raised by the `m.models[0]` access on an empty list. -/
inductive IndexError where
  | indexOutOfRange
deriving Repr, DecidableEq

/-- One element of the `supports_safe_host_model` list comprehension:
`m.name == "host-model" and m.supported and m.models[0].fallback == "forbid"`.
The conjunction short-circuits, so `models[0]` is evaluated (and can raise)
only when the name matches and the mode is supported. -/
def mode_safe_host_entry (m : CPUMode) : Except IndexError Bool :=
  if m.name == some "host-model" && m.supported then
    match m.models with
    | [] => Except.error IndexError.indexOutOfRange
    | mo :: _ => Except.ok (mo.fallback == some "forbid")
  else Except.ok false

/-- The list comprehension of `supports_safe_host_model`, left to right; the
first raised `IndexError` propagates. -/
def supports_safe_host_model_list : List CPUMode → Except IndexError (List Bool)
  | [] => Except.ok []
  | m :: rest =>
    match mode_safe_host_entry m with
    | Except.error e => Except.error e
    | Except.ok b =>
      match supports_safe_host_model_list rest with
      | Except.error e => Except.error e
      | Except.ok bs => Except.ok (b :: bs)

/-- `DomainCapabilities.supports_safe_host_model`: despite its name it returns
the whole per-mode list, or raises `IndexError` on a supported host-model mode
with no models. -/
def supports_safe_host_model (caps : DomainCapabilities) : Except IndexError (List Bool) :=
  supports_safe_host_model_list caps.cpu.modes

/-- The Boolean a `supports_safe_host_model` list entry evaluates to when no
`IndexError` occurs: name is "host-model", the mode is supported, and the
first model's `fallback` is "forbid". -/
def safe_host_model_bool (m : CPUMode) : Bool :=
  m.name == some "host-model" && m.supported &&
    (match m.models with
     | [] => false
     | mo :: _ => mo.fallback == some "forbid")

/-- The inner loop of `get_cpu_models`: append the names of the mode's models
whose `usable` attribute is not "no" ("yes" and unset both count as usable). -/
def mode_usable_models (acc : List String) (m : CPUMode) : List String :=
  m.models.foldl
    (fun ms mo => if !(mo.usable == some "no") then ms ++ [mo.model] else ms) acc

/-- `DomainCapabilities.get_cpu_models`. -/
def get_cpu_models (caps : DomainCapabilities) : List String :=
  caps.cpu.modes.foldl
    (fun ms m =>
      if m.name == some "custom" && m.supported then mode_usable_models ms m
      else ms) []

/-! ## CPU security features and the baseline RPCs

`_convert_mode_to_cpu` and the `DomainCpu` parse operate on XML text through
collaborators outside this source file, so the descriptor and the parsed
expansion result are abstract. -/

/-- A hypervisor-reported error, `libvirt.libvirtError`. -/
structure LibvirtError where
  code : Nat
deriving Repr, DecidableEq

/-- Modelled from the spec: the synthetic CPU descriptor that
`_convert_mode_to_cpu` builds ("take the mode's raw structural form, retag it
as a standalone CPU descriptor, strip its original attributes, and attach the
current architecture as a child field"); the XML serialization itself lives in
the external `xmlbuilder`/ElementTree layers. -/
structure CpuDescriptor where
  mode : CPUMode
  arch : Option String
deriving Repr, DecidableEq

/-- `_convert_mode_to_cpu` on a mode's XML, as the abstract descriptor. -/
def convert_mode_to_cpu (caps : DomainCapabilities) (m : CPUMode) : CpuDescriptor :=
  { mode := m, arch := caps.arch }

/-- One feature of the expanded CPU. -/
structure ExpandedFeature where
  name : Option String
  policy : Option String
deriving Repr, DecidableEq

/-- Modelled from the spec: `DomainCpu` (from the external `domain` module,
not in this repository) parsed from the expanded XML — "Parse the result into
a CPU-feature list structure (name + policy pairs)". -/
structure ExpandedCpu where
  features : List ExpandedFeature
deriving Repr, DecidableEq

/-- `libvirt.VIR_CONNECT_BASELINE_CPU_EXPAND_FEATURES`. -/
def EXPAND_FEATURES : Nat := 1

/-- One baseline RPC issued to the connection, with the exact arguments. -/
inductive BaselineCall where
  | hypervisor (path arch machine domain : Option String)
      (descriptors : List CpuDescriptor) (flags : Nat)
  | generic (descriptors : List CpuDescriptor) (flags : Nat)
deriving Repr, DecidableEq

/-- The connection's two CPU-baseline RPCs, as oracles: each either returns
the expanded CPU (already parsed) or raises a `libvirtError`. -/
structure BaselineConn where
  baselineHypervisorCPU : Option String → Option String → Option String → Option String →
    List CpuDescriptor → Nat → Except LibvirtError ExpandedCpu
  baselineCPU : List CpuDescriptor → Nat → Except LibvirtError ExpandedCpu

/-- `DomainCapabilities._get_expanded_cpu`: try `baselineHypervisorCPU` first
and fall back to `baselineCPU` only when it raises; also records the trace of
RPCs issued, in order. -/
def get_expanded_cpu (conn : BaselineConn) (caps : DomainCapabilities) (m : CPUMode) :
    Except LibvirtError ExpandedCpu × List BaselineCall :=
  let cpuXML := convert_mode_to_cpu caps m
  let hypCall := BaselineCall.hypervisor caps.path caps.arch caps.machine caps.domain
    [cpuXML] EXPAND_FEATURES
  match conn.baselineHypervisorCPU caps.path caps.arch caps.machine caps.domain
      [cpuXML] EXPAND_FEATURES with
  | Except.ok cpu => (Except.ok cpu, [hypCall])
  | Except.error _ =>
    (conn.baselineCPU [cpuXML] EXPAND_FEATURES,
     [hypCall, BaselineCall.generic [cpuXML] EXPAND_FEATURES])

/-- The `sec_features` whitelist, in source order. -/
def sec_feature_names : List String :=
  ["spec-ctrl", "ssbd", "ibpb", "virt-ssbd"]

/-- The inner loop of `get_cpu_security_features`: the names of the expanded
CPU's features that lie in the whitelist, in the hypervisor's reported order
(a `None` name is never in the whitelist). -/
def collect_sec_features (cpu : ExpandedCpu) : List String :=
  cpu.features.filterMap
    (fun f =>
      match f.name with
      | some n => if sec_feature_names.contains n then some n else none
      | none => none)

/-- The mode loop of `get_cpu_security_features`: skip modes whose name is not
"host-model" or that are unsupported; on a `libvirtError` from the expansion,
`break` — return the accumulator immediately. -/
def get_cpu_security_features_loop (conn : BaselineConn) (caps : DomainCapabilities) :
    List CPUMode → List String → List String
  | [], acc => acc
  | m :: rest, acc =>
    if !(m.name == some "host-model") || !m.supported then
      get_cpu_security_features_loop conn caps rest acc
    else
      match (get_expanded_cpu conn caps m).1 with
      | Except.error _ => acc
      | Except.ok cpu =>
        get_cpu_security_features_loop conn caps rest (acc ++ collect_sec_features cpu)

/-- `DomainCapabilities.get_cpu_security_features`. -/
def get_cpu_security_features (conn : BaselineConn) (caps : DomainCapabilities) :
    List String :=
  get_cpu_security_features_loop conn caps caps.cpu.modes []

/-- A mode the `get_cpu_security_features` loop does not skip. -/
def relevant_sec_mode (m : CPUMode) : Bool :=
  m.name == some "host-model" && m.supported

/-- Restatement of the claimed behaviour of `get_cpu_security_features`, built
from the spec's words rather than the loop: take the non-skipped modes in
document order, keep the longest prefix whose expansions all succeed, and
concatenate their whitelisted expanded-feature names. -/
def get_cpu_security_features_specModel (conn : BaselineConn) (caps : DomainCapabilities) :
    List String :=
  ((caps.cpu.modes.filter relevant_sec_mode).takeWhile
      (fun m => ((get_expanded_cpu conn caps m).1).toBool)).flatMap
    (fun m =>
      match (get_expanded_cpu conn caps m).1 with
      | Except.ok cpu => collect_sec_features cpu
      | Except.error _ => [])

/-! ## build_from_params -/

/-- Any Python exception raised by `conn.getDomainCapabilities` (the bare
`except Exception` catches them all). -/
structure FetchError where
  code : Nat
deriving Repr, DecidableEq

/-- The connection as seen by `build_from_params`: the
`SUPPORT_CONN_DOMAIN_CAPABILITIES` check and the document-fetch RPC. -/
structure FetchConn where
  supports_domain_capabilities : Bool
  getDomainCapabilities : Option String → Option String → Option String → Option String →
    Except FetchError String

/-- An empty capability block: every structural accessor reports nothing. -/
def empty_caps_block : CapsBlock :=
  { supported := false, values := [], enums := [] }

/-- `DomainCapabilities(conn)` with no `parsexml`: the stub instance, all
structural fields empty and all scalar fields absent. -/
def stub_domain_capabilities : DomainCapabilities :=
  { os := { supported := false, values := [], enums := [], loader := empty_caps_block },
    cpu := { modes := [] },
    devices := { supported := false, values := [], enums := [],
                 hostdev := empty_caps_block, disk := empty_caps_block },
    features := { supported := false, values := [], enums := [], gic := empty_caps_block },
    arch := none, domain := none, machine := none, path := none }

/-- `DomainCapabilities.build_from_params`.  `parse` is the external
XML-binding layer applied by `DomainCapabilities(conn, parsexml=xml)`; a fetch
exception is swallowed (leaving `xml = None`), and any falsy document — `None`
or the empty string — selects the stub. -/
def build_from_params (parse : String → DomainCapabilities) (conn : FetchConn)
    (emulator arch machine hvtype : Option String) : DomainCapabilities :=
  let xml : Option String :=
    if conn.supports_domain_capabilities then
      match conn.getDomainCapabilities emulator arch machine hvtype with
      | Except.ok x => some x
      | Except.error _ => none
    else none
  match xml with
  | none => stub_domain_capabilities
  | some x => if x == "" then stub_domain_capabilities else parse x

/-! ## Concrete instances used to exercise the theorems -/

/-- A loader block advertising two firmware paths and a `readonly` enum. -/
def example_loader_block : CapsBlock :=
  { supported := true,
    values := [{ value := "/usr/share/ovmf/OVMF_CODE.fd" }, { value := "/opt/custom/fw.bin" }],
    enums := [{ name := some "readonly", values := [{ value := "yes" }, { value := "no" }] },
              { name := some "secure", values := [{ value := "no" }] }] }

/-- An x86_64 capabilities document with the example loader block. -/
def example_caps : DomainCapabilities :=
  { stub_domain_capabilities with
    arch := some "x86_64",
    machine := some "pc",
    domain := some "kvm",
    path := some "/usr/bin/qemu-system-x86_64",
    os := { supported := true, values := [], enums := [], loader := example_loader_block } }

/-- The example capabilities with a non-x86 architecture. -/
def example_caps_aarch64 : DomainCapabilities :=
  { example_caps with arch := some "aarch64" }

/-- A supported host-model mode whose first model forbids fallback. -/
def example_hm_mode : CPUMode :=
  { name := some "host-model", supported := true, vendor := some "Intel",
    models := [{ model := "Skylake-Client-IBRS", usable := none, fallback := some "forbid" }],
    features := [] }

/-- The example caps with a single supported host-model CPU mode. -/
def example_caps_hm : DomainCapabilities :=
  { example_caps with cpu := { modes := [example_hm_mode] } }

/-- Three CPU modes: only the middle one is a safe supported host-model mode. -/
def example_caps_safe : DomainCapabilities :=
  { example_caps with cpu := { modes :=
      [ { name := some "host-passthrough", supported := true, vendor := none,
          models := [], features := [] },
        example_hm_mode,
        { name := some "custom", supported := false, vendor := none,
          models := [], features := [] } ] } }

/-- A supported host-model mode with NO models: evaluating
`m.models[0]` on it raises `IndexError`. -/
def example_caps_empty_models : DomainCapabilities :=
  { example_caps with cpu := { modes :=
      [ { name := some "host-model", supported := true, vendor := none,
          models := [], features := [] } ] } }

/-- One supported custom mode with models A (usable), B (not usable), C (unset). -/
def example_caps_custom : DomainCapabilities :=
  { example_caps with cpu := { modes :=
      [ { name := some "custom", supported := true, vendor := none,
          models := [ { model := "A", usable := some "yes", fallback := none },
                      { model := "B", usable := some "no", fallback := none },
                      { model := "C", usable := none, fallback := none } ],
          features := [] } ] } }

/-- A baseline connection whose newer RPC succeeds, reporting three features
(two of them in the security whitelist); the older RPC would fail. -/
def example_conn_ok : BaselineConn :=
  { baselineHypervisorCPU := fun _ _ _ _ _ _ =>
      Except.ok { features := [ { name := some "ssbd", policy := some "require" },
                                { name := some "vme", policy := some "require" },
                                { name := some "ibpb", policy := some "require" } ] },
    baselineCPU := fun _ _ => Except.error { code := 7 } }

/-- A baseline connection on which both RPC variants fail. -/
def example_conn_fail : BaselineConn :=
  { baselineHypervisorCPU := fun _ _ _ _ _ _ => Except.error { code := 1 },
    baselineCPU := fun _ _ => Except.error { code := 2 } }

/-- A baseline connection whose newer RPC fails but whose older RPC succeeds. -/
def example_conn_fallback : BaselineConn :=
  { baselineHypervisorCPU := fun _ _ _ _ _ _ => Except.error { code := 1 },
    baselineCPU := fun _ _ =>
      Except.ok { features := [ { name := some "virt-ssbd", policy := some "require" } ] } }

/-- A parse oracle standing for `DomainCapabilities(conn, parsexml=xml)`;
it returns a visibly non-stub document. -/
def example_parse : String → DomainCapabilities :=
  fun _ => example_caps

/-- A connection that does not advertise `SUPPORT_CONN_DOMAIN_CAPABILITIES`. -/
def example_fetch_unsupported : FetchConn :=
  { supports_domain_capabilities := false,
    getDomainCapabilities := fun _ _ _ _ => Except.ok "<domainCapabilities/>" }

/-- A connection whose document fetch raises. -/
def example_fetch_error : FetchConn :=
  { supports_domain_capabilities := true,
    getDomainCapabilities := fun _ _ _ _ => Except.error { code := 42 } }

/-- A connection whose document fetch succeeds with an empty (falsy) document. -/
def example_fetch_empty : FetchConn :=
  { supports_domain_capabilities := true,
    getDomainCapabilities := fun _ _ _ _ => Except.ok "" }

/-! ## Helper lemmas -/

theorem helper_usable_fold (ms : List CPUModel) (acc : List String) :
    ms.foldl (fun ms2 mo => if !(mo.usable == some "no") then ms2 ++ [mo.model] else ms2) acc =
      acc ++ (ms.filter (fun mo => !(mo.usable == some "no"))).map CPUModel.model := by
  induction ms generalizing acc with
  | nil => simp
  | cons mo rest ih =>
    simp only [List.foldl_cons, List.filter_cons]
    cases h : (mo.usable == some "no") <;> rw [ih] <;> simp [List.append_assoc]

theorem helper_mode_usable_models (acc : List String) (m : CPUMode) :
    mode_usable_models acc m =
      acc ++ (m.models.filter (fun mo => !(mo.usable == some "no"))).map CPUModel.model :=
  helper_usable_fold m.models acc

theorem helper_get_cpu_models_fold (modes : List CPUMode) (acc : List String) :
    (modes.foldl
        (fun ms m =>
          if m.name == some "custom" && m.supported then mode_usable_models ms m else ms)
        acc) =
      acc ++ (modes.filter (fun m => m.name == some "custom" && m.supported)).flatMap
        (fun m => (m.models.filter (fun mo => !(mo.usable == some "no"))).map CPUModel.model) := by
  induction modes generalizing acc with
  | nil => simp
  | cons m rest ih =>
    simp only [List.foldl_cons, List.filter_cons]
    cases h : (m.name == some "custom" && m.supported) <;> rw [ih] <;>
      simp [helper_mode_usable_models, List.append_assoc]

theorem helper_sshm_ok (ms : List CPUMode)
    (h : ∀ m ∈ ms, m.name = some "host-model" → m.supported = true → m.models ≠ []) :
    supports_safe_host_model_list ms = Except.ok (ms.map safe_host_model_bool) := by
  induction ms with
  | nil => rfl
  | cons m rest ih =>
    have hm := h m (List.mem_cons_self m rest)
    have hrest : ∀ m2 ∈ rest, m2.name = some "host-model" → m2.supported = true →
        m2.models ≠ [] :=
      fun m2 hm2 => h m2 (List.mem_cons_of_mem _ hm2)
    cases hg : (m.name == some "host-model" && m.supported) with
    | false =>
      simp [supports_safe_host_model_list, mode_safe_host_entry, hg, ih hrest,
        safe_host_model_bool]
    | true =>
      have hg2 := hg
      rw [Bool.and_eq_true] at hg2
      have hname : m.name = some "host-model" := by
        have := hg2.1
        simpa using this
      obtain ⟨mo, tl, hmo⟩ : ∃ mo tl, m.models = mo :: tl := by
        cases hmod : m.models with
        | nil => exact absurd hmod (hm hname hg2.2)
        | cons a b => exact ⟨a, b, rfl⟩
      simp [supports_safe_host_model_list, mode_safe_host_entry, hg, hmo, ih hrest,
        safe_host_model_bool]

theorem helper_sshm_err (ms : List CPUMode)
    (h : ∃ m ∈ ms, m.name = some "host-model" ∧ m.supported = true ∧ m.models = []) :
    supports_safe_host_model_list ms = Except.error IndexError.indexOutOfRange := by
  induction ms with
  | nil => simp at h
  | cons m rest ih =>
    rcases h with ⟨m2, hm2, hname, hsup, hmod⟩
    rcases List.mem_cons.mp hm2 with rfl | hmem
    · simp [supports_safe_host_model_list, mode_safe_host_entry, hname, hsup, hmod]
    · cases he : mode_safe_host_entry m with
      | error e =>
        cases e
        simp [supports_safe_host_model_list, he]
      | ok b =>
        simp [supports_safe_host_model_list, he, ih ⟨m2, hmem, hname, hsup, hmod⟩]

theorem helper_gcsf_loop (conn : BaselineConn) (caps : DomainCapabilities)
    (ms : List CPUMode) (acc : List String) :
    get_cpu_security_features_loop conn caps ms acc =
      acc ++ ((ms.filter relevant_sec_mode).takeWhile
          (fun m => ((get_expanded_cpu conn caps m).1).toBool)).flatMap
        (fun m =>
          match (get_expanded_cpu conn caps m).1 with
          | Except.ok cpu => collect_sec_features cpu
          | Except.error _ => []) := by
  induction ms generalizing acc with
  | nil => simp [get_cpu_security_features_loop]
  | cons m rest ih =>
    have hguard : (!(m.name == some "host-model") || !m.supported) = !(relevant_sec_mode m) := by
      unfold relevant_sec_mode
      rw [Bool.not_and]
    cases hrel : relevant_sec_mode m with
    | false =>
      simp [get_cpu_security_features_loop, hguard, hrel, List.filter_cons, ih]
    | true =>
      cases hE : (get_expanded_cpu conn caps m).1 with
      | error e =>
        simp [get_cpu_security_features_loop, hguard, hrel, List.filter_cons,
          List.takeWhile_cons, hE, Except.toBool]
      | ok cpu =>
        simp [get_cpu_security_features_loop, hguard, hrel, List.filter_cons,
          List.takeWhile_cons, hE, Except.toBool, ih, List.append_assoc]

theorem helper_find_min {α : Type} (f : α → Bool) (l : List α) (j : Nat) (v : α)
    (hv : l[j]? = some v) (hf : f v = true)
    (hmin : ∀ j2 v2, l[j2]? = some v2 → j2 < j → f v2 = false) :
    l.find? f = some v := by
  induction l generalizing j with
  | nil => simp at hv
  | cons a t ih =>
    cases j with
    | zero =>
      have hva : a = v := by simpa using hv
      subst hva
      exact List.find?_cons_of_pos t hf
    | succ j2 =>
      have ha : f a = false := hmin 0 a (by simp) (Nat.succ_pos j2)
      rw [List.find?_cons_of_neg t (by simp [ha])]
      exact ih j2 (by simpa using hv)
        (fun j3 v3 h3 hlt => hmin (j3 + 1) v3 (by simpa using h3) (Nat.succ_lt_succ hlt))

theorem helper_ffum_none (ps : List (List RegexTok)) (vs : List String)
    (h : ∀ p ∈ ps, ∀ v ∈ vs, re_match p v = false) :
    find_first_uefi_match ps vs = none := by
  induction ps with
  | nil => rfl
  | cons p pt ih =>
    have hfind : vs.find? (fun v => re_match p v) = none :=
      List.find?_eq_none.mpr (fun v hv => by simp [h p (List.mem_cons_self p pt) v hv])
    unfold find_first_uefi_match
    rw [hfind]
    exact ih (fun p2 hp2 v hv => h p2 (List.mem_cons_of_mem _ hp2) v hv)

theorem helper_ffum_some (ps : List (List RegexTok)) (vs : List String)
    (i j : Nat) (p : List RegexTok) (v : String)
    (hp : ps[i]? = some p) (hv : vs[j]? = some v) (hm : re_match p v = true)
    (hmin : ∀ i2 j2 p2 v2, ps[i2]? = some p2 → vs[j2]? = some v2 →
      (i2 < i ∨ (i2 = i ∧ j2 < j)) → re_match p2 v2 = false) :
    find_first_uefi_match ps vs = some v := by
  induction ps generalizing i with
  | nil => simp at hp
  | cons p0 pt ih =>
    cases i with
    | zero =>
      have hp0 : p0 = p := by simpa using hp
      subst hp0
      have hfind : vs.find? (fun v2 => re_match p0 v2) = some v :=
        helper_find_min (fun v2 => re_match p0 v2) vs j v hv hm
          (fun j2 v2 h2 hlt =>
            hmin 0 j2 p0 v2 (by simp) h2 (Or.inr ⟨rfl, hlt⟩))
      unfold find_first_uefi_match
      rw [hfind]
    | succ i2 =>
      have hfind : vs.find? (fun v2 => re_match p0 v2) = none := by
        apply List.find?_eq_none.mpr
        intro x hx
        obtain ⟨j2, hj2⟩ := List.getElem?_of_mem hx
        simp [hmin 0 j2 p0 x (by simp) hj2 (Or.inl (Nat.succ_pos i2))]
      unfold find_first_uefi_match
      rw [hfind]
      apply ih i2 (by simpa using hp)
      intro i3 j3 p3 v3 h3 h4 h5
      apply hmin (i3 + 1) j3 p3 v3 (by simpa using h3) h4
      rcases h5 with h5 | ⟨rfl, h5⟩
      · exact Or.inl (Nat.succ_lt_succ h5)
      · exact Or.inr ⟨rfl, h5⟩

theorem helper_fapm_none (table : List (String × List (List RegexTok))) (p : String)
    (h : ∀ kv ∈ table, ∀ pat ∈ kv.2, re_match pat p = false) :
    first_arch_pattern_match table p = none := by
  induction table with
  | nil => rfl
  | cons hd tl ih =>
    obtain ⟨a, ps0⟩ := hd
    have hany : ps0.any (fun pat => re_match pat p) = false :=
      List.any_eq_false.mpr
        (fun pat hpat => by simp [h (a, ps0) (List.mem_cons_self _ tl) pat hpat])
    unfold first_arch_pattern_match
    rw [hany]
    simp only [Bool.false_eq_true, if_false]
    exact ih (fun kv hkv pat hpat => h kv (List.mem_cons_of_mem _ hkv) pat hpat)

theorem helper_fapm_some (table : List (String × List (List RegexTok))) (p : String)
    (k : Nat) (kv : String × List (List RegexTok))
    (hk : table[k]? = some kv)
    (hany : kv.2.any (fun pat => re_match pat p) = true)
    (hmin : ∀ k2 kv2, table[k2]? = some kv2 → k2 < k →
      kv2.2.any (fun pat => re_match pat p) = false) :
    first_arch_pattern_match table p = some kv.1 := by
  induction table generalizing k with
  | nil => simp at hk
  | cons hd tl ih =>
    obtain ⟨a, ps0⟩ := hd
    cases k with
    | zero =>
      have hhd : (a, ps0) = kv := by simpa using hk
      subst hhd
      unfold first_arch_pattern_match
      rw [hany]
      simp
    | succ k2 =>
      have hhd : ps0.any (fun pat => re_match pat p) = false := by
        have := hmin 0 (a, ps0) (by simp) (Nat.succ_pos k2)
        simpa using this
      unfold first_arch_pattern_match
      rw [hhd]
      simp only [Bool.false_eq_true, if_false]
      exact ih k2 (by simpa using hk)
        (fun k3 kv3 h3 hlt => hmin (k3 + 1) kv3 (by simpa using h3) (Nat.succ_lt_succ hlt))

theorem helper_arch_can_uefi_of_lookup (caps : DomainCapabilities)
    (pats : List (List RegexTok)) (h : uefi_patterns_for caps.arch = some pats) :
    arch_can_uefi caps = true := by
  cases ha : caps.arch with
  | none => rw [ha] at h; simp [uefi_patterns_for] at h
  | some s =>
    rw [ha] at h
    simp only [uefi_patterns_for] at h
    cases hfind : uefi_arch_patterns.find? (fun kv => kv.1 == s) with
    | none => rw [hfind] at h; simp at h
    | some kv =>
      have hpred := List.find?_some hfind
      have hmem : kv ∈ uefi_arch_patterns := List.mem_of_find?_eq_some hfind
      have heq : kv.1 = s := by simpa using hpred
      unfold arch_can_uefi
      rw [ha]
      exact List.any_eq_true.mpr
        ⟨kv.1, List.mem_map_of_mem Prod.fst hmem, by simp [heq]⟩

/-! ## Claim theorems -/

/-- C1: `build_from_params` returns the stub `DomainCapabilities` instance —
every structural field empty, every scalar field absent — whenever the
connection does not support capability queries or the document fetch raises
any error; the embedding is a total function, so no error reaches the caller. -/
theorem build_from_params_stub_on_failure (parse : String → DomainCapabilities)
    (conn : FetchConn) (emulator arch machine hvtype : Option String)
    (h : conn.supports_domain_capabilities = false ∨
      ∃ e, conn.getDomainCapabilities emulator arch machine hvtype = Except.error e) :
    build_from_params parse conn emulator arch machine hvtype = stub_domain_capabilities
    ∧ stub_domain_capabilities.cpu.modes = []
    ∧ stub_domain_capabilities.os.loader.values = []
    ∧ stub_domain_capabilities.os.loader.enums = []
    ∧ stub_domain_capabilities.os.enums = []
    ∧ stub_domain_capabilities.devices.hostdev.enums = []
    ∧ stub_domain_capabilities.devices.disk.enums = []
    ∧ stub_domain_capabilities.features.gic.enums = []
    ∧ stub_domain_capabilities.arch = none := by
  refine ⟨?_, rfl, rfl, rfl, rfl, rfl, rfl, rfl, rfl⟩
  rcases h with h | ⟨e, he⟩
  · simp [build_from_params, h]
  · cases hs : conn.supports_domain_capabilities
    · simp [build_from_params, hs]
    · simp [build_from_params, hs, he]

/-- Exercises C1 on a connection without capability-query support and on one
whose fetch raises. -/
theorem build_from_params_stub_on_failure_witness :
    build_from_params example_parse example_fetch_unsupported none none none none =
      stub_domain_capabilities
    ∧ build_from_params example_parse example_fetch_error none none none none =
      stub_domain_capabilities :=
  ⟨(build_from_params_stub_on_failure example_parse example_fetch_unsupported
      none none none none (Or.inl rfl)).1,
   (build_from_params_stub_on_failure example_parse example_fetch_error
      none none none none (Or.inr ⟨{ code := 42 }, rfl⟩)).1⟩

/-- C2: `find_uefi_path_for_arch` returns none when the arch is not a key of
the UEFI pattern table (whatever the loader values); otherwise it returns the
loader value at the lexicographically least (pattern index, value index) match
— the earliest pattern wins even when a value matching a later pattern appears
earlier in the document — and none when no pattern matches any value. -/
theorem find_uefi_path_for_arch_spec (caps : DomainCapabilities) :
    (arch_can_uefi caps = false → find_uefi_path_for_arch caps = none)
    ∧ (∀ pats, uefi_patterns_for caps.arch = some pats →
        ((∀ p ∈ pats, ∀ v ∈ loader_values caps, re_match p v = false) →
          find_uefi_path_for_arch caps = none)
        ∧ (∀ (i j : Nat) (p : List RegexTok) (v : String),
            pats[i]? = some p → (loader_values caps)[j]? = some v →
            re_match p v = true →
            (∀ (i2 j2 : Nat) (p2 : List RegexTok) (v2 : String),
              pats[i2]? = some p2 → (loader_values caps)[j2]? = some v2 →
              (i2 < i ∨ (i2 = i ∧ j2 < j)) → re_match p2 v2 = false) →
            find_uefi_path_for_arch caps = some v)) := by
  constructor
  · intro h
    simp [find_uefi_path_for_arch, h]
  · intro pats hpats
    have hcan := helper_arch_can_uefi_of_lookup caps pats hpats
    constructor
    · intro hall
      unfold find_uefi_path_for_arch
      rw [hcan, hpats, if_pos rfl]
      exact helper_ffum_none pats (loader_values caps) hall
    · intro i j p v hp hv hm hmin
      unfold find_uefi_path_for_arch
      rw [hcan, hpats, if_pos rfl]
      exact helper_ffum_some pats (loader_values caps) i j p v hp hv hm hmin

/-- Exercises C2 on the spec's example: on x86_64 the OVMF_CODE path is
returned because it matches the first pattern at the first loader value. -/
theorem find_uefi_path_for_arch_spec_witness :
    find_uefi_path_for_arch example_caps = some "/usr/share/ovmf/OVMF_CODE.fd" :=
  ((find_uefi_path_for_arch_spec example_caps).2 uefi_patterns_x86_64 rfl).2
    0 0 [RegexTok.dotStar, RegexTok.lit "OVMF_CODE.fd".data]
    "/usr/share/ovmf/OVMF_CODE.fd" rfl rfl (by decide)
    (fun i2 j2 p2 v2 _ _ h3 =>
      absurd h3 (by rintro (h4 | ⟨-, h4⟩) <;> exact Nat.not_lt_zero _ h4))

/-- C3: `get_cpu_security_features` equals the spec-side model: process the
supported "host-model" modes in document order, keep the longest prefix whose
expansions succeed (the first hypervisor error stops all further modes), and
concatenate the whitelisted expanded-feature names in reported order; the
function is total, so no error escapes the query.  The extra conjuncts run it
against succeeding and failing connections. -/
theorem get_cpu_security_features_spec :
    (∀ (conn : BaselineConn) (caps : DomainCapabilities),
      get_cpu_security_features conn caps = get_cpu_security_features_specModel conn caps)
    ∧ get_cpu_security_features example_conn_ok example_caps_hm = ["ssbd", "ibpb"]
    ∧ get_cpu_security_features example_conn_fail example_caps_hm = [] := by
  refine ⟨?_, rfl, rfl⟩
  intro conn caps
  unfold get_cpu_security_features get_cpu_security_features_specModel
  simpa using helper_gcsf_loop conn caps caps.cpu.modes []

/-- C4: under the precondition that every supported host-model mode has at
least one model, `supports_safe_host_model` returns the whole per-mode list of
Booleans, each true exactly when the mode is named "host-model", is supported,
and its first model's fallback is "forbid". -/
theorem supports_safe_host_model_spec (caps : DomainCapabilities)
    (h : ∀ m ∈ caps.cpu.modes, m.name = some "host-model" → m.supported = true →
      m.models ≠ []) :
    supports_safe_host_model caps = Except.ok (caps.cpu.modes.map safe_host_model_bool) :=
  helper_sshm_ok caps.cpu.modes h

/-- Exercises C4 on a three-mode tree: one Boolean per mode, true only for the
safe supported host-model mode. -/
theorem supports_safe_host_model_spec_witness :
    supports_safe_host_model example_caps_safe = Except.ok [false, true, false] := by
  rw [supports_safe_host_model_spec example_caps_safe (by decide)]
  rfl

/-- C5: `get_cpu_models` is the concatenation, over supported modes named
"custom" in document order, of their model names whose `usable` attribute is
not "no" (unset counts as usable), in model document order; on the A/B/C
example it returns ["A", "C"]. -/
theorem get_cpu_models_spec :
    (∀ caps : DomainCapabilities,
      get_cpu_models caps =
        (caps.cpu.modes.filter (fun m => m.name == some "custom" && m.supported)).flatMap
          (fun m =>
            (m.models.filter (fun mo => !(mo.usable == some "no"))).map CPUModel.model))
    ∧ get_cpu_models example_caps_custom = ["A", "C"] := by
  refine ⟨?_, rfl⟩
  intro caps
  unfold get_cpu_models
  simpa using helper_get_cpu_models_fold caps.cpu.modes []

/-- C6: `label_for_firmware_path` returns "BIOS" for an absent path on
i686/x86_64 and "None" for an absent path on any other arch; for a present
path it scans the whole pattern table in order independently of the instance's
own arch, returning on the first matching entry a UEFI label combining the
matched architecture with the path, and a "Custom: <path>" label when nothing
in the table matches. -/
theorem label_for_firmware_path_spec (caps : DomainCapabilities) :
    ((caps.arch = some "i686" ∨ caps.arch = some "x86_64") →
      label_for_firmware_path caps none = "BIOS")
    ∧ (¬(caps.arch = some "i686" ∨ caps.arch = some "x86_64") →
      label_for_firmware_path caps none = "None")
    ∧ (∀ p : String, p ≠ "" →
        (∀ caps2 : DomainCapabilities,
          label_for_firmware_path caps (some p) = label_for_firmware_path caps2 (some p))
        ∧ (∀ (k : Nat) (kv : String × List (List RegexTok)),
            uefi_arch_patterns[k]? = some kv →
            kv.2.any (fun pat => re_match pat p) = true →
            (∀ (k2 : Nat) (kv2 : String × List (List RegexTok)),
              uefi_arch_patterns[k2]? = some kv2 → k2 < k →
              kv2.2.any (fun pat => re_match pat p) = false) →
            label_for_firmware_path caps (some p) = uefi_label kv.1 p)
        ∧ ((∀ kv ∈ uefi_arch_patterns, ∀ pat ∈ kv.2, re_match pat p = false) →
            label_for_firmware_path caps (some p) = custom_label p)) := by
  refine ⟨?_, ?_, ?_⟩
  · rintro (h | h) <;>
      simp [label_for_firmware_path, path_is_falsy, no_firmware_label, h]
  · intro h
    push_neg at h
    have h1 : (caps.arch == some "i686") = false := beq_eq_false_iff_ne.mpr h.1
    have h2 : (caps.arch == some "x86_64") = false := beq_eq_false_iff_ne.mpr h.2
    simp [label_for_firmware_path, path_is_falsy, no_firmware_label, h1, h2]
  · intro p hp
    have hfalsy : path_is_falsy (some p) = false := by
      simp only [path_is_falsy]
      exact beq_eq_false_iff_ne.mpr hp
    refine ⟨?_, ?_, ?_⟩
    · intro caps2
      unfold label_for_firmware_path
      rw [hfalsy]
      rfl
    · intro k kv hk hany hmin
      simp only [label_for_firmware_path, hfalsy, Bool.false_eq_true, if_false,
        Option.getD_some]
      rw [helper_fapm_some uefi_arch_patterns p k kv hk hany hmin]
    · intro hall
      simp only [label_for_firmware_path, hfalsy, Bool.false_eq_true, if_false,
        Option.getD_some]
      rw [helper_fapm_none uefi_arch_patterns p hall]

/-- Exercises C6: BIOS and None labels for an absent path, the custom label
for an unmatched path, and the UEFI label for an aarch64 firmware path found
from an instance whose own arch plays no role. -/
theorem label_for_firmware_path_spec_witness :
    label_for_firmware_path example_caps none = "BIOS"
    ∧ label_for_firmware_path example_caps_aarch64 none = "None"
    ∧ label_for_firmware_path example_caps (some "/weird/path") = custom_label "/weird/path"
    ∧ label_for_firmware_path example_caps (some "/usr/share/AAVMF_CODE.fd") =
        uefi_label "aarch64" "/usr/share/AAVMF_CODE.fd" := by
  refine ⟨?_, ?_, ?_, ?_⟩
  · exact (label_for_firmware_path_spec example_caps).1 (Or.inr rfl)
  · exact (label_for_firmware_path_spec example_caps_aarch64).2.1 (by decide)
  · exact (((label_for_firmware_path_spec example_caps).2.2 "/weird/path"
      (by decide)).2.2) (by decide)
  · refine (((label_for_firmware_path_spec example_caps).2.2 "/usr/share/AAVMF_CODE.fd"
      (by decide)).2.1) 2 ("aarch64", uefi_patterns_aarch64) rfl (by decide) ?_
    intro k2 kv2 hk2 hlt
    interval_cases k2
    · have hv : ("i686", uefi_patterns_i686) = kv2 := by
        have h0 : uefi_arch_patterns[(0 : Nat)]? = some ("i686", uefi_patterns_i686) := rfl
        rw [h0] at hk2
        exact Option.some.inj hk2
      rw [← hv]
      decide
    · have hv : ("x86_64", uefi_patterns_x86_64) = kv2 := by
        have h1 : uefi_arch_patterns[(1 : Nat)]? = some ("x86_64", uefi_patterns_x86_64) := rfl
        rw [h1] at hk2
        exact Option.some.inj hk2
      rw [← hv]
      decide

/-- C7: `get_enum` returns an enum of the block bearing the requested name
when one exists, and fails hard (the embedded `KeyError`, the spec's
`NotFoundError`) — rather than returning none — when no enum has that name. -/
theorem get_enum_spec (b : CapsBlock) (n : Option String) :
    ((∃ e ∈ b.enums, e.name = n) →
      ∃ e, get_enum b n = Except.ok e ∧ e ∈ b.enums ∧ e.name = n)
    ∧ ((∀ e ∈ b.enums, e.name ≠ n) →
      get_enum b n = Except.error LookupError.keyNotFound) := by
  constructor
  · rintro ⟨e0, he0, hname⟩
    have hne : b.enums.filter (fun e => e.name == n) ≠ [] := by
      intro hnil
      rw [List.filter_eq_nil_iff] at hnil
      exact hnil e0 he0 (by simp [hname])
    cases hlast : (b.enums.filter (fun e => e.name == n)).getLast? with
    | none => exact absurd (List.getLast?_eq_none_iff.mp hlast) hne
    | some e =>
      have hmem := List.mem_filter.mp (List.mem_of_getLast?_eq_some hlast)
      refine ⟨e, ?_, hmem.1, by simpa using hmem.2⟩
      unfold get_enum
      rw [hlast]
  · intro h
    have hfil : b.enums.filter (fun e => e.name == n) = [] := by
      rw [List.filter_eq_nil_iff]
      intro e he
      simp [h e he]
    unfold get_enum
    rw [hfil]
    rfl

/-- Exercises C7: a present name is found, an absent one raises. -/
theorem get_enum_spec_witness :
    (∃ e, get_enum example_loader_block (some "readonly") = Except.ok e ∧
      e ∈ example_loader_block.enums ∧ e.name = some "readonly")
    ∧ get_enum example_loader_block (some "absent") = Except.error LookupError.keyNotFound :=
  ⟨(get_enum_spec example_loader_block (some "readonly")).1 (by decide),
   (get_enum_spec example_loader_block (some "absent")).2 (by decide)⟩

/-- C8: `_get_expanded_cpu` always issues `baselineHypervisorCPU` first with
the instance's path/arch/machine/domain, the single synthetic descriptor and
the expand-features flag; exactly when that call raises a hypervisor error it
issues `baselineCPU` once with the same descriptor batch and flag, and when
the first call succeeds the older RPC is never issued (the trace is the single
hypervisor call). -/
theorem get_expanded_cpu_spec (conn : BaselineConn) (caps : DomainCapabilities)
    (m : CPUMode) :
    (∀ cpu, conn.baselineHypervisorCPU caps.path caps.arch caps.machine caps.domain
        [convert_mode_to_cpu caps m] EXPAND_FEATURES = Except.ok cpu →
      get_expanded_cpu conn caps m =
        (Except.ok cpu,
         [BaselineCall.hypervisor caps.path caps.arch caps.machine caps.domain
            [convert_mode_to_cpu caps m] EXPAND_FEATURES]))
    ∧ (∀ e, conn.baselineHypervisorCPU caps.path caps.arch caps.machine caps.domain
        [convert_mode_to_cpu caps m] EXPAND_FEATURES = Except.error e →
      get_expanded_cpu conn caps m =
        (conn.baselineCPU [convert_mode_to_cpu caps m] EXPAND_FEATURES,
         [BaselineCall.hypervisor caps.path caps.arch caps.machine caps.domain
            [convert_mode_to_cpu caps m] EXPAND_FEATURES,
          BaselineCall.generic [convert_mode_to_cpu caps m] EXPAND_FEATURES])) := by
  constructor
  · intro cpu h
    simp only [get_expanded_cpu]
    rw [h]
  · intro e h
    simp only [get_expanded_cpu]
    rw [h]

/-- Exercises C8: a succeeding newer RPC yields a one-call trace; a failing
newer RPC falls back to the older RPC, a two-call trace. -/
theorem get_expanded_cpu_spec_witness :
    get_expanded_cpu example_conn_ok example_caps_hm example_hm_mode =
      (Except.ok { features := [ { name := some "ssbd", policy := some "require" },
                                 { name := some "vme", policy := some "require" },
                                 { name := some "ibpb", policy := some "require" } ] },
       [BaselineCall.hypervisor example_caps_hm.path example_caps_hm.arch
          example_caps_hm.machine example_caps_hm.domain
          [convert_mode_to_cpu example_caps_hm example_hm_mode] EXPAND_FEATURES])
    ∧ get_expanded_cpu example_conn_fallback example_caps_hm example_hm_mode =
      (Except.ok { features := [ { name := some "virt-ssbd", policy := some "require" } ] },
       [BaselineCall.hypervisor example_caps_hm.path example_caps_hm.arch
          example_caps_hm.machine example_caps_hm.domain
          [convert_mode_to_cpu example_caps_hm example_hm_mode] EXPAND_FEATURES,
        BaselineCall.generic [convert_mode_to_cpu example_caps_hm example_hm_mode]
          EXPAND_FEATURES]) :=
  ⟨(get_expanded_cpu_spec example_conn_ok example_caps_hm example_hm_mode).1 _ rfl,
   (get_expanded_cpu_spec example_conn_fallback example_caps_hm example_hm_mode).2
     { code := 1 } rfl⟩

/-- C9: on a CPU tree containing a supported "host-model" mode with no models,
`supports_safe_host_model` raises the out-of-range `IndexError` from the
`m.models[0]` access instead of returning a list — the access is total only
when every supported host-model mode has at least one model. -/
theorem supports_safe_host_model_empty_models_raises (caps : DomainCapabilities)
    (h : ∃ m ∈ caps.cpu.modes, m.name = some "host-model" ∧ m.supported = true ∧
      m.models = []) :
    supports_safe_host_model caps = Except.error IndexError.indexOutOfRange :=
  helper_sshm_err caps.cpu.modes h

/-- Exercises C9 on a one-mode tree with an empty model list. -/
theorem supports_safe_host_model_empty_models_raises_witness :
    supports_safe_host_model example_caps_empty_models =
      Except.error IndexError.indexOutOfRange :=
  supports_safe_host_model_empty_models_raises example_caps_empty_models (by decide)

/-- C10: when the connection supports capability queries and the fetch
succeeds with an empty (falsy) document, `build_from_params` still returns the
stub instance — the very same value an unsupported connection produces, so a
caller cannot distinguish the two cases (nor a failed fetch, per C1). -/
theorem build_from_params_empty_document (parse : String → DomainCapabilities)
    (conn : FetchConn) (emulator arch machine hvtype : Option String)
    (h1 : conn.supports_domain_capabilities = true)
    (h2 : conn.getDomainCapabilities emulator arch machine hvtype = Except.ok "") :
    build_from_params parse conn emulator arch machine hvtype = stub_domain_capabilities
    ∧ (∀ (parse2 : String → DomainCapabilities) (conn2 : FetchConn),
        conn2.supports_domain_capabilities = false →
        build_from_params parse conn emulator arch machine hvtype =
          build_from_params parse2 conn2 emulator arch machine hvtype) := by
  have hstub : build_from_params parse conn emulator arch machine hvtype =
      stub_domain_capabilities := by
    simp [build_from_params, h1, h2]
  refine ⟨hstub, ?_⟩
  intro parse2 conn2 hc2
  rw [hstub]
  simp [build_from_params, hc2]

/-- Exercises C10 on a connection that fetches an empty document. -/
theorem build_from_params_empty_document_witness :
    build_from_params example_parse example_fetch_empty none none none none =
      stub_domain_capabilities :=
  (build_from_params_empty_document example_parse example_fetch_empty
    none none none none rfl rfl).1
